import Mathlib

/-!
# telegram-notifications: the windowed log aggregator of `main.go`

A shallow embedding of `main.go`.  Go strings are embedded as `String`
(only concatenation and the test against the empty string are used), a Go
`error` is embedded as its description (`err.Error()`, what `%v` prints), and
`time.Duration` / clock readings are integers counting nanoseconds.
-/

namespace TelegramNotifications

/-! ## Data model -/

/-- LogMessage holds the details of an incoming log entry (`main.go`, line 18). -/
structure LogMessage where
  Sender : String
  Level : String
  Text : String
deriving DecidableEq, Repr

/-! ## Formatting (aggregator, lines 78-88) -/

/-- One iteration of the loop at lines 80-88: what the body does to `combined`
for the message `m`. -/
def appendLine (combined : String) (m : LogMessage) : String :=
  let c1 := if m.Sender ≠ "" then combined ++ ("From: *" ++ m.Sender ++ "*: ") else combined
  let c2 := if m.Level ≠ "" then c1 ++ ("`[" ++ m.Level ++ "]` ") else c1
  c2 ++ (m.Text ++ "\n")

/-- Lines 79-88: `combined := ""` followed by the loop over `messages`. -/
def combine (messages : List LogMessage) : String :=
  messages.foldl appendLine ""

/-- The line of a single message: what the loop body adds to an empty `combined`. -/
def formatLine (m : LogMessage) : String :=
  appendLine "" m

/-- Concatenation of a list of strings, first element first. -/
def concatLines : List String → String
  | [] => ""
  | l :: ls => l ++ concatLines ls

/-- The formatting rule in the words of the specification: the sender prefix (if
any), then the level prefix (if any), then the text, then a newline. -/
def formatLineSpec (m : LogMessage) : String :=
  (if m.Sender ≠ "" then "From: *" ++ m.Sender ++ "*: " else "") ++
    ((if m.Level ≠ "" then "`[" ++ m.Level ++ "]` " else "") ++ (m.Text ++ "\n"))

/-! ## Delivery sink (sendTelegramMessage, lines 32-56) -/

/-- The package-level variables of lines 24-28. -/
structure Globals where
  telegramBotToken : String
  telegramChatID : String
  mergeInterval : Int

/-- The JSON object built at lines 34-38. -/
structure Payload where
  chat_id : String
  text : String
  parse_mode : String
deriving DecidableEq, Repr

/-- What `sendTelegramMessage` looks at in the response of `http.Post`: the
status code and the bytes obtained by `io.ReadAll(resp.Body)` (whose error is
discarded at line 52). -/
structure Response where
  StatusCode : Int
  Body : String
deriving DecidableEq, Repr

/-- The two library calls of `sendTelegramMessage`, taken as parameters:
`json.Marshal` and `http.Post`.  `σ` is the state of the network and of the
messaging service; an `error` is embedded as its description. -/
structure Net (σ : Type) where
  marshal : Payload → Except String String
  post : σ → String → String → String → Except String Response × σ

/-- A delivery sink: one synchronous call taking the text, returning `none` for
`nil` and `some e` for an error with description `e`, with the new state of the
outside world. -/
abbrev Sink (σ : Type) : Type := σ → String → Option String × σ

/-- Lines 32-56.  The result is the returned `error` (`none` for `nil`). -/
def sendTelegramMessage {σ : Type} (net : Net σ) (g : Globals) : Sink σ :=
  fun w message =>
    let url := "https://api.telegram.org/bot" ++ g.telegramBotToken ++ "/sendMessage"
    let payload : Payload := ⟨g.telegramChatID, message, "Markdown"⟩
    match net.marshal payload with
    | .error err => (some err, w)
    | .ok data =>
      match net.post w url "application/json" data with
      | (.error err, w1) => (some err, w1)
      | (.ok resp, w1) =>
        if resp.StatusCode ≠ 200 then
          (some ("non-OK response: " ++ Int.repr resp.StatusCode ++ ", body: " ++ resp.Body), w1)
        else
          (none, w1)

/-! ## Configuration (main, lines 152-162) -/

/-- The constant `time.Second`, in nanoseconds. -/
def Second : Int := 1000000000

/-- Lines 152-162: the value given to `mergeInterval` for the value
`mergeIntervalStr` of `MERGE_INTERVAL`.  `time.ParseDuration` is a parameter. -/
def loadMergeInterval (parseDuration : String → Except String Int)
    (mergeIntervalStr : String) : Int :=
  if mergeIntervalStr = "" then
    1 * Second
  else
    match parseDuration mergeIntervalStr with
    | .error _ => 1 * Second
    | .ok d => d

/-! ## The channel `msgChan` -/

/-- A Go channel of `LogMessage`, as made by `make(chan LogMessage, n)` (line 170
has `n = 100`): its capacity `n` and the messages sent on it that the aggregator
has not received yet, oldest first.  With `n ≥ 1` these are the buffered
messages, and a send that Go hands directly to a waiting receiver is the send
into the empty buffer followed by the receive.  With `n = 0` the channel has no
buffer, and `buf` holds at most the one message handed to the aggregator
blocked in its receive, until the receive step of the aggregator takes it. -/
structure Chan where
  cap : Nat
  buf : List LogMessage
deriving DecidableEq, Repr

/-- The send of a `select` with a `default` branch (lines 135-141): `some` of
the new channel when the send proceeds, `none` for `default`.  The send
proceeds when there is room in the buffer, and, on an unbuffered channel, when
the receiver is blocked in its receive: the aggregator is, at line 63 or in the
`select` of lines 70-75, unless a message handed to it is still pending. -/
def Chan.trySend (c : Chan) (m : LogMessage) : Option Chan :=
  if c.buf.length < c.cap then
    some ⟨c.cap, c.buf ++ [m]⟩
  else if c.cap = 0 ∧ c.buf = [] then
    some ⟨c.cap, c.buf ++ [m]⟩
  else
    none

/-- A receive `<-msgChan` when it is ready: the oldest message and the rest;
`none` when the buffer is empty (the receive is not ready). -/
def Chan.tryRecv (c : Chan) : Option (LogMessage × Chan) :=
  match c.buf with
  | [] => none
  | m :: rest => some (m, ⟨c.cap, rest⟩)

/-- The channel made at line 170. -/
def mainChan : Chan := ⟨100, []⟩

/-! ## System state -/

/-- The three places where `sendTelegramMessage` is called: line 91 (the
digest of a window), line 95 (the error notification after a failed digest) and
line 118 (the notification of a rejected request). -/
inductive Site where
  | digest
  | notice
  | reject
deriving DecidableEq, Repr

/-- One recorded call of the sink: where it was made, its text and its result. -/
structure Call where
  site : Site
  text : String
  result : Option String
deriving DecidableEq, Repr

/-- Local state of the aggregator goroutine: blocked at line 63 (`idle`), or in
the `select` of lines 70-75 with the messages collected so far and the instant
at which the timer of line 67 becomes ready. -/
inductive Agg where
  | idle
  | collecting (messages : List LogMessage) (deadline : Int)
deriving DecidableEq, Repr

/-- State of the running program.  `calls`, `accepted` and `closed` are history
variables: the sink calls made so far, the messages whose send at line 136
succeeded, and the batches of the windows closed so far. -/
structure Sys (σ : Type) where
  msgChan : Chan
  agg : Agg
  now : Int
  world : σ
  calls : List Call
  accepted : List LogMessage
  closed : List (List LogMessage)

/-- The state after startup: empty channel of capacity `cap`, aggregator at
line 63. -/
def Sys.init {σ : Type} (cap : Nat) (now : Int) (w : σ) : Sys σ :=
  ⟨⟨cap, []⟩, .idle, now, w, [], [], []⟩

/-! ## Closing a window (aggregator, lines 90-98) -/

/-- Lines 91-98 for the text `combined`: the calls made, in order, and the
world after them. -/
def deliver {σ : Type} (send : Sink σ) (w : σ) (combined : String) : List Call × σ :=
  match send w combined with
  | (none, w1) => ([⟨.digest, combined, none⟩], w1)
  | (some err, w1) =>
    let errorMsg := "Error occurred while processing log message: " ++ err
    match send w1 errorMsg with
    | (err2, w2) => ([⟨.digest, combined, some err⟩, ⟨.notice, errorMsg, err2⟩], w2)

/-! ## The HTTP handler (submitHandler, lines 106-143) -/

/-- What the handler reads of a request: the method, the result of
`io.ReadAll(r.Body)` (data and error) and the parsed query `r.URL.Query()`. -/
structure Request where
  Method : String
  BodyData : String
  BodyErr : Option String
  Query : String → List String

/-- The method `Get` of `url.Values`: the first value of the key, or `""`. -/
def Get (q : String → List String) (key : String) : String :=
  match q key with
  | [] => ""
  | v :: _ => v

/-- Status code and body written to the `http.ResponseWriter`; `http.Error`
writes its message followed by a newline. -/
structure HttpReply where
  Status : Nat
  Body : String
deriving DecidableEq, Repr

/-- Lines 107-142, run on the state `s`: the reply and the state afterwards. -/
def submitHandler {σ : Type} (send : Sink σ) (r : Request) (s : Sys σ) :
    HttpReply × Sys σ :=
  if r.Method ≠ "POST" then
    (⟨405, "Method not allowed" ++ "\n"⟩, s)
  else if r.BodyErr.isSome ∨ r.BodyData.length = 0 then
    let errMsg := "Empty or invalid message body received"
    match send s.world ("Error: " ++ errMsg) with
    | (res, w1) =>
      (⟨400, errMsg ++ "\n"⟩,
        ⟨s.msgChan, s.agg, s.now, w1, s.calls ++ [⟨.reject, "Error: " ++ errMsg, res⟩],
          s.accepted, s.closed⟩)
  else
    let text := r.BodyData
    let sender := Get r.Query "sender"
    let level := Get r.Query "level"
    let msg : LogMessage := ⟨sender, level, text⟩
    match s.msgChan.trySend msg with
    | some ch =>
      (⟨202, "Message received"⟩,
        ⟨ch, s.agg, s.now, s.world, s.calls, s.accepted ++ [msg], s.closed⟩)
    | none => (⟨503, "Server busy" ++ "\n"⟩, s)

/-! ## Steps of the running program -/

/-- The events that move the program: an HTTP request served by the handler, a
receive of the aggregator from `msgChan` (line 63 or line 71), the timer case of
the `select` (line 73, followed by lines 78-98), and the passing of `d`
nanoseconds. -/
inductive Event where
  | request (r : Request)
  | recv
  | fire
  | tick (d : Nat)

/-- Which communication of the aggregator goroutine proceeds: a receive from
`msgChan` (line 63, or the first case of the `select`, line 71), or the timer
case of the `select` (line 73). -/
inductive Ready where
  | message
  | timer

/-- The loop of `aggregator` (lines 60-100), one communication at a time:
`none` when that communication cannot proceed (a receive on an empty channel,
a timer that is not running or not yet due).  The timer case runs lines 74-98
and returns to line 63. -/
def aggregator {σ : Type} (send : Sink σ) (mergeInterval : Int) (s : Sys σ) :
    Ready → Option (Sys σ)
  | .message =>
    match s.msgChan.tryRecv with
    | none => none
    | some (m, ch) =>
      match s.agg with
      | .idle =>
        some ⟨ch, .collecting [m] (s.now + mergeInterval), s.now, s.world, s.calls,
          s.accepted, s.closed⟩
      | .collecting messages deadline =>
        some ⟨ch, .collecting (messages ++ [m]) deadline, s.now, s.world, s.calls,
          s.accepted, s.closed⟩
  | .timer =>
    match s.agg with
    | .idle => none
    | .collecting messages deadline =>
      if deadline ≤ s.now then
        match deliver send s.world (combine messages) with
        | (cs, w) =>
          some ⟨s.msgChan, .idle, s.now, w, s.calls ++ cs, s.accepted,
            s.closed ++ [messages]⟩
      else
        none

/-- One step of the program; `none` when the event cannot happen in `s`. -/
def step {σ : Type} (send : Sink σ) (mergeInterval : Int) (s : Sys σ) :
    Event → Option (Sys σ)
  | .request r => some (submitHandler send r s).2
  | .recv => aggregator send mergeInterval s .message
  | .fire => aggregator send mergeInterval s .timer
  | .tick d => some ⟨s.msgChan, s.agg, s.now + d, s.world, s.calls, s.accepted, s.closed⟩

/-- A sequence of steps, `none` as soon as one of them cannot happen. -/
def run {σ : Type} (send : Sink σ) (mergeInterval : Int) :
    Sys σ → List Event → Option (Sys σ)
  | s, [] => some s
  | s, e :: es =>
    match step send mergeInterval s e with
    | none => none
    | some s1 => run send mergeInterval s1 es

/-! ## Vocabulary of the statements -/

/-- The texts of the digest calls (line 91) of a call log, in order. -/
def digests (cs : List Call) : List String :=
  (cs.filter (fun c => c.site = Site.digest)).map Call.text

/-- The batch the aggregator holds: empty when idle. -/
def openBatch : Agg → List LogMessage
  | .idle => []
  | .collecting messages _ => messages

/-- A submission the handler does not reject: a POST whose body was read
without error and is not empty. -/
def Request.valid (r : Request) : Prop :=
  r.Method = "POST" ∧ r.BodyErr = none ∧ r.BodyData.length ≠ 0

/-- The message built at lines 121-132 for a request. -/
def Request.msg (r : Request) : LogMessage :=
  ⟨Get r.Query "sender", Get r.Query "level", r.BodyData⟩

/-- Arrivals while the aggregator collects: for each pair, `d` nanoseconds
pass, the request is served, and the aggregator receives from the channel. -/
def arrivals : List (Nat × Request) → List Event
  | [] => []
  | (d, r) :: rest => Event.tick d :: Event.request r :: Event.recv :: arrivals rest

/-- Total time that passes during `arrivals`. -/
def elapsed : List (Nat × Request) → Nat
  | [] => 0
  | (d, _) :: rest => d + elapsed rest

/-- Conservation of messages in a state: the accepted messages are, in order,
those of the closed windows, then those of the open batch, then those still in
the channel; the digest calls made are the digests of the closed windows; no
window is empty. -/
def Conserved {σ : Type} (s : Sys σ) : Prop :=
  s.accepted = s.closed.flatten ++ (openBatch s.agg ++ s.msgChan.buf) ∧
  digests s.calls = s.closed.map combine ∧
  (∀ b ∈ s.closed, b ≠ []) ∧
  (∀ ms dl, s.agg = Agg.collecting ms dl → ms ≠ [])

/-- The messages of a list of timed requests, in order. -/
def msgsOf (rest : List (Nat × Request)) : List LogMessage :=
  rest.map (fun p => p.2.msg)

/-- Whether an event is the timer case of the `select`. -/
def Event.isFire : Event → Bool
  | .fire => true
  | _ => false

/-- A sequence of events in which the timer case is never taken. -/
def fireFree (evs : List Event) : Bool :=
  evs.all (fun e => !e.isFire)

/-! ## Example inputs -/

/-- A sink that always succeeds and counts its calls. -/
def okSink : Sink Nat := fun w _ => (none, w + 1)

/-- A sink that always fails with the description `"timeout"`. -/
def downSink : Sink Nat := fun w _ => (some "timeout", w + 1)

/-- A network whose service answers every request with status 404. -/
def notFoundNet : Net Nat :=
  ⟨fun p => .ok p.text, fun w _ _ _ => (.ok ⟨404, "Not Found"⟩, w + 1)⟩

/-- Globals of a configured process. -/
def globalsEx : Globals := ⟨"TOKEN", "42", Second⟩

/-- A duration reader that knows `"500ms"` only. -/
def parseEx (s : String) : Except String Int :=
  if s = "500ms" then .ok 500000000 else .error ("time: invalid duration " ++ s)

/-- A POST with body `text` and the query `sender=...&level=...`. -/
def postOf (sender level text : String) : Request :=
  ⟨"POST", text, none,
    fun k => if k = "sender" then [sender] else if k = "level" then [level] else []⟩

/-- A POST with an empty body. -/
def emptyPost : Request := ⟨"POST", "", none, fun _ => []⟩

/-- A state whose channel of capacity 2 is full. -/
def fullSys : Sys Nat :=
  ⟨⟨2, [⟨"a", "info", "one"⟩, ⟨"b", "", "two"⟩]⟩, .idle, 0, 0, [], [], []⟩

/-- The state after startup with an unbuffered channel, `make(chan LogMessage, 0)`. -/
def unbufferedSys : Sys Nat := Sys.init 0 0 0

/-- A state in which the aggregator collects one message and the timer is due. -/
def dueSys : Sys Nat :=
  ⟨⟨2, []⟩, .collecting [⟨"bot1", "error", "down"⟩] 5, 10, 0, [], [⟨"bot1", "error", "down"⟩], []⟩

/-- A run from startup with capacity 2 and a sink that is down: three requests
of which the third finds the channel full, two receives, one second, the timer,
then the third request again and its receive. -/
def traceEx : List Event :=
  [.request (postOf "bot1" "error" "down"), .request (postOf "" "" "ok"),
    .request (postOf "bot2" "" "late"), .recv, .recv, .tick 1000000000, .fire,
    .request (postOf "bot2" "" "late"), .recv]

/-- The state reached by `traceEx`. -/
def finalEx : Sys Nat :=
  ⟨⟨2, []⟩, .collecting [⟨"bot2", "", "late"⟩] 2000000000, 1000000000, 2,
    [⟨.digest, "From: *bot1*: `[error]` down\nok\n", some "timeout"⟩,
      ⟨.notice, "Error occurred while processing log message: timeout", some "timeout"⟩],
    [⟨"bot1", "error", "down"⟩, ⟨"", "", "ok"⟩, ⟨"bot2", "", "late"⟩],
    [[⟨"bot1", "error", "down"⟩, ⟨"", "", "ok"⟩]]⟩

/-! ## Helper lemmas on formatting -/

theorem appendLine_eq (combined : String) (m : LogMessage) :
    appendLine combined m = combined ++ formatLine m := by
  unfold formatLine appendLine
  by_cases hs : m.Sender = "" <;> by_cases hl : m.Level = "" <;>
    simp [hs, hl, String.append_assoc]

theorem foldl_appendLine (ms : List LogMessage) (acc : String) :
    ms.foldl appendLine acc = acc ++ combine ms := by
  induction ms using List.reverseRecOn with
  | nil => simp [combine]
  | append_singleton ms m ih =>
    simp only [combine, List.foldl_append, List.foldl_cons, List.foldl_nil]
    rw [appendLine_eq, ih, appendLine_eq (List.foldl appendLine "" ms) m]
    simp [combine, String.append_assoc]

theorem combine_append (a b : List LogMessage) :
    combine (a ++ b) = combine a ++ combine b := by
  show List.foldl appendLine "" (a ++ b) = _
  rw [List.foldl_append, foldl_appendLine]
  rfl

theorem combine_singleton (m : LogMessage) : combine [m] = formatLine m := rfl

theorem combine_cons (m : LogMessage) (ms : List LogMessage) :
    combine (m :: ms) = formatLine m ++ combine ms := by
  have h := combine_append [m] ms
  simpa [combine_singleton] using h

theorem combine_eq_concatLines (ms : List LogMessage) :
    combine ms = concatLines (ms.map formatLine) := by
  induction ms with
  | nil => rfl
  | cons m ms ih => rw [combine_cons, ih]; rfl

/-! ## Claims on formatting -/

/-- C1: the line the aggregator formats for a message is the sender prefix (when
the sender is non-empty), then the level prefix (when the level is non-empty),
then the text and a newline; the loop body appends exactly that line to
`combined`.  The two examples of the specification evaluate as stated. -/
theorem C1_format_line (combined : String) (m : LogMessage) :
    appendLine combined m = combined ++ formatLineSpec m ∧
    combine [m] = formatLineSpec m ∧
    combine [⟨"bot1", "error", "down"⟩] = "From: *bot1*: `[error]` down\n" ∧
    combine [⟨"", "", "ok"⟩] = "ok\n" := by
  have key : ∀ c : String, appendLine c m = c ++ formatLineSpec m := by
    intro c
    unfold appendLine formatLineSpec
    by_cases hs : m.Sender = "" <;> by_cases hl : m.Level = "" <;>
      simp [hs, hl, String.append_assoc]
  refine ⟨key combined, ?_, by decide, by decide⟩
  show appendLine "" m = _
  rw [key]; simp

theorem formatLine_eq_formatLineSpec (m : LogMessage) : formatLine m = formatLineSpec m := by
  unfold formatLine appendLine formatLineSpec
  by_cases hs : m.Sender = "" <;> by_cases hl : m.Level = "" <;>
    simp [hs, hl, String.append_assoc]

/-- C2: the digest of a batch is the concatenation, in arrival order, of the
lines of its messages as the formatting rule gives them (sender prefix, level
prefix, text, newline), one line per message and nothing added; the digest of
`a ++ b` is the digest of `a` followed by the digest of `b`, and the digest of
the empty batch is empty. -/
theorem C2_digest_concat (ms a b : List LogMessage) :
    combine ms = concatLines (ms.map formatLineSpec) ∧
    combine (a ++ b) = combine a ++ combine b ∧
    combine [] = "" := by
  refine ⟨?_, combine_append a b, rfl⟩
  rw [combine_eq_concatLines]
  congr 1
  exact List.map_congr_left (fun m _ => formatLine_eq_formatLineSpec m)

/-! ## The delivery sink and the configuration -/

/-- C8: when `http.Post` returns a response, `sendTelegramMessage` returns
`nil` exactly when the status code is 200, and for every other status code the
error `non-OK response: <status>, body: <body>`. -/
theorem C8_send_status {σ : Type} (net : Net σ) (g : Globals) (w w1 : σ)
    (message data : String) (resp : Response)
    (hm : net.marshal ⟨g.telegramChatID, message, "Markdown"⟩ = .ok data)
    (hp : net.post w ("https://api.telegram.org/bot" ++ g.telegramBotToken ++ "/sendMessage")
      "application/json" data = (.ok resp, w1)) :
    ((sendTelegramMessage net g w message).1 = none ↔ resp.StatusCode = 200) ∧
    (resp.StatusCode ≠ 200 →
      (sendTelegramMessage net g w message).1 =
        some ("non-OK response: " ++ Int.repr resp.StatusCode ++ ", body: " ++ resp.Body)) := by
  unfold sendTelegramMessage
  simp only [hm, hp]
  by_cases h : resp.StatusCode = 200 <;> simp [h]

/-- Witness of C8: a service answering 404 with body `Not Found`. -/
theorem C8_send_status_witness :
    (sendTelegramMessage notFoundNet globalsEx 0 "hello").1 =
      some "non-OK response: 404, body: Not Found" :=
  (C8_send_status notFoundNet globalsEx 0 1 "hello" "hello" ⟨404, "Not Found"⟩ rfl rfl).2
    (by decide)

/-- C9: the merge interval is one second when `MERGE_INTERVAL` is empty or is
not read as a duration, and the duration read otherwise. -/
theorem C9_merge_interval (parseDuration : String → Except String Int) (v : String) :
    ((v = "" ∨ ∃ e, parseDuration v = .error e) →
      loadMergeInterval parseDuration v = 1000000000) ∧
    (∀ d, v ≠ "" → parseDuration v = .ok d → loadMergeInterval parseDuration v = d) := by
  constructor
  · rintro (h | ⟨e, h⟩)
    · simp [loadMergeInterval, h, Second]
    · by_cases hv : v = "" <;> simp [loadMergeInterval, hv, h, Second]
  · intro d hv h
    simp [loadMergeInterval, hv, h]

/-- Witness of C9: `500ms` is read, `soon` and the empty value are not. -/
theorem C9_merge_interval_witness :
    loadMergeInterval parseEx "500ms" = 500000000 ∧
    loadMergeInterval parseEx "soon" = 1000000000 ∧
    loadMergeInterval parseEx "" = 1000000000 :=
  ⟨(C9_merge_interval parseEx "500ms").2 500000000 (by decide) rfl,
   (C9_merge_interval parseEx "soon").1 (Or.inr ⟨_, rfl⟩),
   (C9_merge_interval parseEx "").1 (Or.inl rfl)⟩

/-! ## The handler -/

theorem length_eq_zero_iff (t : String) : t.length = 0 ↔ t = "" := by
  constructor
  · intro h
    cases t with
    | mk data =>
      have hd : data = [] := List.length_eq_zero.mp h
      subst hd
      rfl
  · intro h
    subst h
    rfl

theorem submitHandler_not_post {σ : Type} (send : Sink σ) (r : Request) (s : Sys σ)
    (hm : r.Method ≠ "POST") :
    submitHandler send r s = (⟨405, "Method not allowed\n"⟩, s) := by
  unfold submitHandler
  rw [if_pos hm]
  rfl

theorem submitHandler_reject {σ : Type} (send : Sink σ) (r : Request) (s : Sys σ)
    (hm : r.Method = "POST") (hb : r.BodyErr.isSome ∨ r.BodyData.length = 0) :
    submitHandler send r s =
      (⟨400, "Empty or invalid message body received\n"⟩,
        ⟨s.msgChan, s.agg, s.now,
          (send s.world "Error: Empty or invalid message body received").2,
          s.calls ++ [⟨.reject, "Error: Empty or invalid message body received",
            (send s.world "Error: Empty or invalid message body received").1⟩],
          s.accepted, s.closed⟩) := by
  unfold submitHandler
  rw [if_neg (not_not.mpr hm), if_pos hb]
  rfl

theorem submitHandler_room {σ : Type} (send : Sink σ) (r : Request) (s : Sys σ)
    (hv : r.valid) (hc : s.msgChan.buf.length < s.msgChan.cap) :
    submitHandler send r s =
      (⟨202, "Message received"⟩,
        ⟨⟨s.msgChan.cap, s.msgChan.buf ++ [r.msg]⟩, s.agg, s.now, s.world, s.calls,
          s.accepted ++ [r.msg], s.closed⟩) := by
  obtain ⟨hm, he, hl⟩ := hv
  have hb : ¬ (r.BodyErr.isSome ∨ r.BodyData.length = 0) := by
    simp [he, hl]
  unfold submitHandler
  rw [if_neg (not_not.mpr hm), if_neg hb]
  simp [Chan.trySend, hc, Request.msg]

theorem submitHandler_handoff {σ : Type} (send : Sink σ) (r : Request) (s : Sys σ)
    (hv : r.valid) (hc : s.msgChan.cap = 0 ∧ s.msgChan.buf = []) :
    submitHandler send r s =
      (⟨202, "Message received"⟩,
        ⟨⟨s.msgChan.cap, s.msgChan.buf ++ [r.msg]⟩, s.agg, s.now, s.world, s.calls,
          s.accepted ++ [r.msg], s.closed⟩) := by
  obtain ⟨hm, he, hl⟩ := hv
  have hb : ¬ (r.BodyErr.isSome ∨ r.BodyData.length = 0) := by
    simp [he, hl]
  have hlt : ¬ s.msgChan.buf.length < s.msgChan.cap := by
    rw [hc.1]
    exact Nat.not_lt_zero _
  unfold submitHandler
  rw [if_neg (not_not.mpr hm), if_neg hb]
  simp only [Chan.trySend, if_neg hlt, if_pos hc]
  rfl

theorem submitHandler_full {σ : Type} (send : Sink σ) (r : Request) (s : Sys σ)
    (hv : r.valid) (hc : ¬ s.msgChan.buf.length < s.msgChan.cap)
    (hu : ¬ (s.msgChan.cap = 0 ∧ s.msgChan.buf = [])) :
    submitHandler send r s = (⟨503, "Server busy\n"⟩, s) := by
  obtain ⟨hm, he, hl⟩ := hv
  have hb : ¬ (r.BodyErr.isSome ∨ r.BodyData.length = 0) := by
    simp [he, hl]
  unfold submitHandler
  rw [if_neg (not_not.mpr hm), if_neg hb]
  simp only [Chan.trySend, if_neg hc, if_neg hu]
  rfl

/-- The four ways a request can end. -/
theorem submitHandler_cases {σ : Type} (send : Sink σ) (r : Request) (s : Sys σ) :
    (r.Method ≠ "POST" ∧ submitHandler send r s = (⟨405, "Method not allowed\n"⟩, s)) ∨
    (r.Method = "POST" ∧ (r.BodyErr.isSome ∨ r.BodyData.length = 0) ∧
      submitHandler send r s =
        (⟨400, "Empty or invalid message body received\n"⟩,
          ⟨s.msgChan, s.agg, s.now,
            (send s.world "Error: Empty or invalid message body received").2,
            s.calls ++ [⟨.reject, "Error: Empty or invalid message body received",
              (send s.world "Error: Empty or invalid message body received").1⟩],
            s.accepted, s.closed⟩)) ∨
    (r.valid ∧
      (s.msgChan.buf.length < s.msgChan.cap ∨ (s.msgChan.cap = 0 ∧ s.msgChan.buf = [])) ∧
      submitHandler send r s =
        (⟨202, "Message received"⟩,
          ⟨⟨s.msgChan.cap, s.msgChan.buf ++ [r.msg]⟩, s.agg, s.now, s.world, s.calls,
            s.accepted ++ [r.msg], s.closed⟩)) ∨
    (r.valid ∧ ¬ s.msgChan.buf.length < s.msgChan.cap ∧
      ¬ (s.msgChan.cap = 0 ∧ s.msgChan.buf = []) ∧
      submitHandler send r s = (⟨503, "Server busy\n"⟩, s)) := by
  by_cases hm : r.Method = "POST"
  · by_cases hb : r.BodyErr.isSome ∨ r.BodyData.length = 0
    · exact Or.inr (Or.inl ⟨hm, hb, submitHandler_reject send r s hm hb⟩)
    · have hv : r.valid := by
        refine ⟨hm, ?_, fun h => hb (Or.inr h)⟩
        cases he : r.BodyErr with
        | none => rfl
        | some e => exact absurd (Or.inl (by simp [he])) hb
      by_cases hc : s.msgChan.buf.length < s.msgChan.cap
      · exact Or.inr (Or.inr (Or.inl ⟨hv, Or.inl hc, submitHandler_room send r s hv hc⟩))
      · by_cases hu : s.msgChan.cap = 0 ∧ s.msgChan.buf = []
        · exact Or.inr (Or.inr (Or.inl ⟨hv, Or.inr hu, submitHandler_handoff send r s hv hu⟩))
        · exact Or.inr (Or.inr (Or.inr ⟨hv, hc, hu, submitHandler_full send r s hv hc hu⟩))
  · exact Or.inl ⟨hm, submitHandler_not_post send r s hm⟩

/-- C7: a POST whose body is empty or could not be read is answered with 400
and `Empty or invalid message body received`, and the channel and the accepted
messages are unchanged; whenever a request changes the channel, it appends one
message whose text is the non-empty body and whose sender and level are the
`sender` and `level` query parameters. -/
theorem C7_empty_body_rejected {σ : Type} (send : Sink σ) (r : Request) (s : Sys σ) :
    (r.Method = "POST" → (r.BodyErr ≠ none ∨ r.BodyData = "") →
      (submitHandler send r s).1 = ⟨400, "Empty or invalid message body received\n"⟩ ∧
      (submitHandler send r s).2.msgChan = s.msgChan ∧
      (submitHandler send r s).2.accepted = s.accepted ∧
      (submitHandler send r s).2.agg = s.agg) ∧
    (((submitHandler send r s).2.msgChan = s.msgChan ∧
        (submitHandler send r s).2.accepted = s.accepted) ∨
      ∃ m : LogMessage,
        (submitHandler send r s).2.msgChan.buf = s.msgChan.buf ++ [m] ∧
        (submitHandler send r s).2.accepted = s.accepted ++ [m] ∧
        m.Text = r.BodyData ∧ m.Text ≠ "" ∧
        m.Sender = Get r.Query "sender" ∧ m.Level = Get r.Query "level" ∧
        r.Method = "POST" ∧ r.BodyErr = none) := by
  constructor
  · intro hm hb
    have hb2 : r.BodyErr.isSome ∨ r.BodyData.length = 0 := by
      rcases hb with h | h
      · left
        cases he : r.BodyErr with
        | none => exact absurd he h
        | some e => rfl
      · right
        exact (length_eq_zero_iff _).mpr h
    rw [submitHandler_reject send r s hm hb2]
    exact ⟨rfl, rfl, rfl, rfl⟩
  · rcases submitHandler_cases send r s with ⟨_, h⟩ | ⟨_, _, h⟩ | ⟨hv, _, h⟩ | ⟨_, _, _, h⟩
    · rw [h]; exact Or.inl ⟨rfl, rfl⟩
    · rw [h]; exact Or.inl ⟨rfl, rfl⟩
    · rw [h]
      refine Or.inr ⟨r.msg, rfl, rfl, rfl, ?_, rfl, rfl, hv.1, hv.2.1⟩
      intro h0
      exact hv.2.2 ((length_eq_zero_iff _).mpr h0)
    · rw [h]; exact Or.inl ⟨rfl, rfl⟩

/-- Witness of C7: an empty POST on a full channel. -/
theorem C7_empty_body_rejected_witness :
    (submitHandler okSink emptyPost fullSys).1 =
      ⟨400, "Empty or invalid message body received\n"⟩ ∧
    (submitHandler okSink emptyPost fullSys).2.msgChan = fullSys.msgChan ∧
    (submitHandler okSink emptyPost fullSys).2.accepted = fullSys.accepted ∧
    (submitHandler okSink emptyPost fullSys).2.agg = fullSys.agg :=
  (C7_empty_body_rejected okSink emptyPost fullSys).1 rfl (Or.inr rfl)

/-! ## Steps and runs -/

theorem deliver_fst_success {σ : Type} (send : Sink σ) (w : σ) (combined : String)
    (h : (send w combined).1 = none) :
    deliver send w combined = ([⟨.digest, combined, none⟩], (send w combined).2) := by
  unfold deliver
  cases hs : send w combined with
  | mk res w1 =>
    rw [hs] at h
    dsimp only at h
    subst h
    rfl

theorem deliver_fst_failure {σ : Type} (send : Sink σ) (w : σ) (combined e : String)
    (h : (send w combined).1 = some e) :
    deliver send w combined =
      ([⟨.digest, combined, some e⟩,
        ⟨.notice, "Error occurred while processing log message: " ++ e,
          (send (send w combined).2 ("Error occurred while processing log message: " ++ e)).1⟩],
        (send (send w combined).2 ("Error occurred while processing log message: " ++ e)).2) := by
  unfold deliver
  cases hs : send w combined with
  | mk res w1 =>
    rw [hs] at h
    dsimp only at h
    subst h
    rfl

theorem digests_append (a b : List Call) : digests (a ++ b) = digests a ++ digests b := by
  simp [digests]

theorem digests_deliver {σ : Type} (send : Sink σ) (w : σ) (combined : String) :
    digests (deliver send w combined).1 = [combined] := by
  cases h : (send w combined).1 with
  | none => rw [deliver_fst_success send w combined h]; rfl
  | some e => rw [deliver_fst_failure send w combined e h]; rfl

theorem step_fire_due {σ : Type} (send : Sink σ) (mi : Int) (s : Sys σ)
    (ms : List LogMessage) (dl : Int) (hagg : s.agg = .collecting ms dl) (hdue : dl ≤ s.now) :
    step send mi s .fire =
      some ⟨s.msgChan, .idle, s.now, (deliver send s.world (combine ms)).2,
        s.calls ++ (deliver send s.world (combine ms)).1, s.accepted, s.closed ++ [ms]⟩ := by
  simp only [step, aggregator, hagg, if_pos hdue]

theorem step_recv_collecting {σ : Type} (send : Sink σ) (mi : Int) (s : Sys σ)
    (ms : List LogMessage) (dl : Int) (m : LogMessage) (tl : List LogMessage)
    (hagg : s.agg = .collecting ms dl) (hbuf : s.msgChan.buf = m :: tl) :
    step send mi s .recv =
      some ⟨⟨s.msgChan.cap, tl⟩, .collecting (ms ++ [m]) dl, s.now, s.world, s.calls,
        s.accepted, s.closed⟩ := by
  simp only [step, aggregator, Chan.tryRecv, hagg, hbuf]

theorem step_recv_idle {σ : Type} (send : Sink σ) (mi : Int) (s : Sys σ)
    (m : LogMessage) (tl : List LogMessage)
    (hagg : s.agg = .idle) (hbuf : s.msgChan.buf = m :: tl) :
    step send mi s .recv =
      some ⟨⟨s.msgChan.cap, tl⟩, .collecting [m] (s.now + mi), s.now, s.world, s.calls,
        s.accepted, s.closed⟩ := by
  simp only [step, aggregator, Chan.tryRecv, hagg, hbuf]

theorem run_cons_some {σ : Type} (send : Sink σ) (mi : Int) (s s1 : Sys σ) (e : Event)
    (es : List Event) (h : step send mi s e = some s1) :
    run send mi s (e :: es) = run send mi s1 es := by
  simp only [run, h]

theorem run_append_some {σ : Type} (send : Sink σ) (mi : Int) (a b : List Event) :
    ∀ (s s1 : Sys σ), run send mi s a = some s1 →
      run send mi s (a ++ b) = run send mi s1 b := by
  induction a with
  | nil =>
    intro s s1 h
    simp only [run, Option.some.injEq] at h
    subst h
    rfl
  | cons e es ih =>
    intro s s1 h
    cases hs : step send mi s e with
    | none => simp [run, hs] at h
    | some s2 =>
      rw [run_cons_some send mi s s2 e es hs] at h
      rw [List.cons_append, run_cons_some send mi s s2 e _ hs]
      exact ih s2 s1 h

/-- C4: closing a window whose timer is due makes the digest call; when it
succeeds it is the only call, when it fails with `e` exactly one more call is
made, with text `Error occurred while processing log message: ` followed by
`e`, and whatever its result the aggregator is idle again afterwards, with the
channel untouched. -/
theorem C4_delivery_retry {σ : Type} (send : Sink σ) (mi : Int) (s : Sys σ)
    (ms : List LogMessage) (dl : Int) (hagg : s.agg = .collecting ms dl) (hdue : dl ≤ s.now) :
    (∃ s1, step send mi s .fire = some s1 ∧ s1.agg = .idle ∧ s1.msgChan = s.msgChan ∧
      s1.calls = s.calls ++ (deliver send s.world (combine ms)).1 ∧
      s1.world = (deliver send s.world (combine ms)).2) ∧
    ((send s.world (combine ms)).1 = none →
      (deliver send s.world (combine ms)).1 = [⟨.digest, combine ms, none⟩]) ∧
    (∀ e, (send s.world (combine ms)).1 = some e →
      (deliver send s.world (combine ms)).1 =
        [⟨.digest, combine ms, some e⟩,
          ⟨.notice, "Error occurred while processing log message: " ++ e,
            (send (send s.world (combine ms)).2
              ("Error occurred while processing log message: " ++ e)).1⟩]) := by
  refine ⟨⟨_, step_fire_due send mi s ms dl hagg hdue, rfl, rfl, rfl, rfl⟩, ?_, ?_⟩
  · intro h
    rw [deliver_fst_success send s.world _ h]
  · intro e h
    rw [deliver_fst_failure send s.world _ e h]

/-- Witness of C4: with a sink that is down, the window of `dueSys` ends with
two calls, the digest and the error notification. -/
theorem C4_delivery_retry_witness :
    (deliver downSink dueSys.world (combine [⟨"bot1", "error", "down"⟩])).1 =
      [⟨.digest, combine [⟨"bot1", "error", "down"⟩], some "timeout"⟩,
        ⟨.notice, "Error occurred while processing log message: " ++ "timeout",
          (downSink (downSink dueSys.world (combine [⟨"bot1", "error", "down"⟩])).2
            ("Error occurred while processing log message: " ++ "timeout")).1⟩] :=
  (C4_delivery_retry downSink 1000000000 dueSys [⟨"bot1", "error", "down"⟩] 5 rfl
    (by decide)).2.2 "timeout" rfl

/-! ## Invariants of runs -/

theorem step_request {σ : Type} (send : Sink σ) (mi : Int) (s : Sys σ) (r : Request) :
    step send mi s (.request r) = some (submitHandler send r s).2 := rfl

theorem step_tick {σ : Type} (send : Sink σ) (mi : Int) (s : Sys σ) (d : Nat) :
    step send mi s (.tick d) =
      some ⟨s.msgChan, s.agg, s.now + d, s.world, s.calls, s.accepted, s.closed⟩ := rfl

theorem step_recv_empty {σ : Type} (send : Sink σ) (mi : Int) (s : Sys σ)
    (hbuf : s.msgChan.buf = []) : step send mi s .recv = none := by
  simp only [step, aggregator, Chan.tryRecv, hbuf]

theorem step_fire_idle {σ : Type} (send : Sink σ) (mi : Int) (s : Sys σ)
    (hagg : s.agg = .idle) : step send mi s .fire = none := by
  simp only [step, aggregator, hagg]

theorem step_fire_early {σ : Type} (send : Sink σ) (mi : Int) (s : Sys σ)
    (ms : List LogMessage) (dl : Int) (hagg : s.agg = .collecting ms dl) (h : ¬ dl ≤ s.now) :
    step send mi s .fire = none := by
  simp only [step, aggregator, hagg, if_neg h]

theorem step_chan {σ : Type} (send : Sink σ) (mi : Int) (s s1 : Sys σ) (e : Event)
    (hpos : 0 < s.msgChan.cap) (h : step send mi s e = some s1) :
    s1.msgChan.cap = s.msgChan.cap ∧
    (s.msgChan.buf.length ≤ s.msgChan.cap → s1.msgChan.buf.length ≤ s.msgChan.cap) := by
  cases e with
  | request r =>
    rw [step_request, Option.some.injEq] at h
    subst h
    rcases submitHandler_cases send r s with ⟨_, h⟩ | ⟨_, _, h⟩ | ⟨_, hc, h⟩ | ⟨_, _, _, h⟩
    · rw [h]; exact ⟨rfl, id⟩
    · rw [h]; exact ⟨rfl, id⟩
    · rw [h]
      refine ⟨rfl, fun _ => ?_⟩
      have hlt : s.msgChan.buf.length < s.msgChan.cap := by
        rcases hc with hc | hc
        · exact hc
        · omega
      simp only [List.length_append, List.length_singleton]
      omega
    · rw [h]; exact ⟨rfl, id⟩
  | recv =>
    cases hbuf : s.msgChan.buf with
    | nil => rw [step_recv_empty send mi s hbuf] at h; cases h
    | cons m tl =>
      cases hagg : s.agg with
      | idle =>
        rw [step_recv_idle send mi s m tl hagg hbuf, Option.some.injEq] at h
        subst h
        exact ⟨rfl, fun hle => by simp only [List.length_cons] at hle; show tl.length ≤ _; omega⟩
      | collecting ms dl =>
        rw [step_recv_collecting send mi s ms dl m tl hagg hbuf, Option.some.injEq] at h
        subst h
        exact ⟨rfl, fun hle => by simp only [List.length_cons] at hle; show tl.length ≤ _; omega⟩
  | fire =>
    cases hagg : s.agg with
    | idle => rw [step_fire_idle send mi s hagg] at h; cases h
    | collecting ms dl =>
      by_cases hd : dl ≤ s.now
      · rw [step_fire_due send mi s ms dl hagg hd, Option.some.injEq] at h
        subst h
        exact ⟨rfl, id⟩
      · rw [step_fire_early send mi s ms dl hagg hd] at h; cases h
  | tick d =>
    rw [step_tick, Option.some.injEq] at h
    subst h
    exact ⟨rfl, id⟩

theorem run_chan {σ : Type} (send : Sink σ) (mi : Int) (evs : List Event) :
    ∀ (s s1 : Sys σ), 0 < s.msgChan.cap → run send mi s evs = some s1 →
      s.msgChan.buf.length ≤ s.msgChan.cap →
      s1.msgChan.cap = s.msgChan.cap ∧ s1.msgChan.buf.length ≤ s.msgChan.cap := by
  induction evs with
  | nil =>
    intro s s1 _ h hle
    simp only [run, Option.some.injEq] at h
    subst h
    exact ⟨rfl, hle⟩
  | cons e es ih =>
    intro s s1 hpos h hle
    cases hs : step send mi s e with
    | none => simp [run, hs] at h
    | some s2 =>
      rw [run_cons_some send mi s s2 e es hs] at h
      obtain ⟨hcap, hlen⟩ := step_chan send mi s s2 e hpos hs
      have h2 := ih s2 s1 (by rw [hcap]; exact hpos) h (by rw [hcap]; exact hlen hle)
      rw [hcap] at h2
      exact h2

/-- C3, for every capacity of at least 1: on a channel that holds
as many messages as its capacity the send of the handler takes the `default`
branch: a valid request is answered 503 `Server busy` and the state, the
channel contents included, is unchanged; and along every run the capacity is
constant and the number of messages in the channel never exceeds it. -/
theorem C3_full_inbox {σ : Type} (send : Sink σ) (mi : Int) (s : Sys σ)
    (hpos : 0 < s.msgChan.cap) :
    (s.msgChan.buf.length = s.msgChan.cap → ∀ m, s.msgChan.trySend m = none) ∧
    (s.msgChan.buf.length = s.msgChan.cap → ∀ r : Request, r.valid →
      submitHandler send r s = (⟨503, "Server busy\n"⟩, s)) ∧
    (s.msgChan.buf.length ≤ s.msgChan.cap → ∀ evs s1, run send mi s evs = some s1 →
      s1.msgChan.cap = s.msgChan.cap ∧ s1.msgChan.buf.length ≤ s.msgChan.cap) := by
  have hu : ¬ (s.msgChan.cap = 0 ∧ s.msgChan.buf = []) := fun hc => by omega
  refine ⟨?_, ?_, ?_⟩
  · intro hfull m
    have hlt : ¬ s.msgChan.buf.length < s.msgChan.cap := by omega
    simp only [Chan.trySend, if_neg hlt, if_neg hu]
  · intro hfull r hv
    exact submitHandler_full send r s hv (by omega) hu
  · intro hle evs s1 h
    exact run_chan send mi evs s s1 hpos h hle

/-- Witness of C3: a valid POST on the full channel of `fullSys`, of capacity 2. -/
theorem C3_full_inbox_witness :
    submitHandler okSink (postOf "bot1" "error" "down") fullSys =
      (⟨503, "Server busy\n"⟩, fullSys) :=
  (C3_full_inbox okSink 1000000000 fullSys (by decide)).2.1 rfl
    (postOf "bot1" "error" "down") ⟨rfl, rfl, by decide⟩

/-- Counterexample to C3 at capacity 0: the channel of `unbufferedSys` holds as
many messages as its capacity, none, the aggregator is blocked in its receive
at line 63, and the send of the handler proceeds: the reply is 202
`Message received`, not 503, and the message is accepted and handed over. -/
theorem C3_full_inbox_counterexample :
    unbufferedSys.msgChan.buf.length = unbufferedSys.msgChan.cap ∧
    unbufferedSys.msgChan.trySend ⟨"bot1", "error", "down"⟩ ≠ none ∧
    (submitHandler okSink (postOf "bot1" "error" "down") unbufferedSys).1 =
      ⟨202, "Message received"⟩ ∧
    (submitHandler okSink (postOf "bot1" "error" "down") unbufferedSys).1 ≠
      ⟨503, "Server busy\n"⟩ ∧
    (submitHandler okSink (postOf "bot1" "error" "down") unbufferedSys).2.msgChan.buf =
      [⟨"bot1", "error", "down"⟩] ∧
    (submitHandler okSink (postOf "bot1" "error" "down") unbufferedSys).2.accepted =
      [⟨"bot1", "error", "down"⟩] := by
  refine ⟨rfl, by decide, by decide, by decide, by decide, by decide⟩

/-! ## Conservation of messages -/

theorem conserved_init {σ : Type} (cap : Nat) (t0 : Int) (w : σ) :
    Conserved (Sys.init cap t0 w) := by
  refine ⟨rfl, rfl, ?_, ?_⟩
  · intro b hb
    simp [Sys.init] at hb
  · intro ms dl h
    simp [Sys.init] at h

theorem step_conserved {σ : Type} (send : Sink σ) (mi : Int) (s s1 : Sys σ) (e : Event)
    (hinv : Conserved s) (h : step send mi s e = some s1) : Conserved s1 := by
  obtain ⟨hacc, hdig, hne, hopen⟩ := hinv
  cases e with
  | request r =>
    rw [step_request, Option.some.injEq] at h
    subst h
    rcases submitHandler_cases send r s with ⟨_, h⟩ | ⟨_, _, h⟩ | ⟨_, _, h⟩ | ⟨_, _, _, h⟩
    · rw [h]; exact ⟨hacc, hdig, hne, hopen⟩
    · rw [h]
      refine ⟨hacc, ?_, hne, hopen⟩
      show digests (s.calls ++ _) = _
      rw [digests_append, hdig]
      simp [digests]
    · rw [h]
      refine ⟨?_, hdig, hne, hopen⟩
      show s.accepted ++ [r.msg] = s.closed.flatten ++ (openBatch s.agg ++ (s.msgChan.buf ++ [r.msg]))
      rw [hacc]
      simp only [List.append_assoc]
    · rw [h]; exact ⟨hacc, hdig, hne, hopen⟩
  | recv =>
    cases hbuf : s.msgChan.buf with
    | nil => rw [step_recv_empty send mi s hbuf] at h; cases h
    | cons m tl =>
      cases hagg : s.agg with
      | idle =>
        rw [step_recv_idle send mi s m tl hagg hbuf, Option.some.injEq] at h
        subst h
        refine ⟨?_, hdig, hne, ?_⟩
        · show s.accepted = s.closed.flatten ++ ([m] ++ tl)
          rw [hacc, hagg, hbuf]
          rfl
        · intro ms dl hc
          simp only [Agg.collecting.injEq] at hc
          rw [← hc.1]
          simp
      | collecting ms dl =>
        rw [step_recv_collecting send mi s ms dl m tl hagg hbuf, Option.some.injEq] at h
        subst h
        refine ⟨?_, hdig, hne, ?_⟩
        · show s.accepted = s.closed.flatten ++ ((ms ++ [m]) ++ tl)
          rw [hacc, hagg, hbuf]
          simp [openBatch]
        · intro ms2 dl2 hc
          simp only [Agg.collecting.injEq] at hc
          rw [← hc.1]
          simp
  | fire =>
    cases hagg : s.agg with
    | idle => rw [step_fire_idle send mi s hagg] at h; cases h
    | collecting ms dl =>
      by_cases hd : dl ≤ s.now
      · rw [step_fire_due send mi s ms dl hagg hd, Option.some.injEq] at h
        subst h
        refine ⟨?_, ?_, ?_, ?_⟩
        · show s.accepted = (s.closed ++ [ms]).flatten ++ ([] ++ s.msgChan.buf)
          rw [hacc, hagg]
          simp [openBatch]
        · show digests (s.calls ++ _) = (s.closed ++ [ms]).map combine
          rw [digests_append, digests_deliver, hdig]
          simp
        · intro b hb
          show b ≠ []
          have hb2 : b ∈ s.closed ++ [ms] := hb
          rcases List.mem_append.mp hb2 with hb3 | hb3
          · exact hne b hb3
          · rw [List.mem_singleton.mp hb3]
            exact hopen ms dl hagg
        · intro ms2 dl2 hc
          cases hc
      · rw [step_fire_early send mi s ms dl hagg hd] at h; cases h
  | tick d =>
    rw [step_tick, Option.some.injEq] at h
    subst h
    exact ⟨hacc, hdig, hne, hopen⟩

theorem run_conserved {σ : Type} (send : Sink σ) (mi : Int) (evs : List Event) :
    ∀ (s s1 : Sys σ), Conserved s → run send mi s evs = some s1 → Conserved s1 := by
  induction evs with
  | nil =>
    intro s s1 hinv h
    simp only [run, Option.some.injEq] at h
    subst h
    exact hinv
  | cons e es ih =>
    intro s s1 hinv h
    cases hs : step send mi s e with
    | none => simp [run, hs] at h
    | some s2 =>
      rw [run_cons_some send mi s s2 e es hs] at h
      exact ih s2 s1 (step_conserved send mi s s2 e hinv hs) h

/-! ## Windows -/

theorem run_arrivals {σ : Type} (send : Sink σ) (mi : Int) (cap : Nat) (hcap : 0 < cap)
    (w : σ) (calls : List Call) (closed : List (List LogMessage)) (dl : Int)
    (rest : List (Nat × Request)) :
    (∀ p ∈ rest, p.2.valid) →
    ∀ (ms : List LogMessage) (now : Int) (acc : List LogMessage),
      run send mi ⟨⟨cap, []⟩, .collecting ms dl, now, w, calls, acc, closed⟩ (arrivals rest) =
        some ⟨⟨cap, []⟩, .collecting (ms ++ msgsOf rest) dl, now + (elapsed rest : Int), w,
          calls, acc ++ msgsOf rest, closed⟩ := by
  induction rest with
  | nil =>
    intro _ ms now acc
    simp [arrivals, run, msgsOf, elapsed]
  | cons p rest ih =>
    intro hv ms now acc
    obtain ⟨d, r⟩ := p
    have hr : r.valid := hv (d, r) (List.mem_cons_self _ _)
    have hrest : ∀ q ∈ rest, q.2.valid := fun q hq => hv q (List.mem_cons_of_mem _ hq)
    show run send mi _ (Event.tick d :: Event.request r :: Event.recv :: arrivals rest) = _
    rw [run_cons_some send mi _ _ _ _ (step_tick send mi _ d)]
    rw [run_cons_some send mi _ _ _ _ (step_request send mi _ r)]
    rw [submitHandler_room send r _ hr (by simpa using hcap)]
    rw [run_cons_some send mi _ _ _ _
      (step_recv_collecting send mi _ ms dl r.msg [] rfl rfl)]
    rw [ih hrest (ms ++ [r.msg]) (now + (d : Int)) (acc ++ [r.msg])]
    simp [msgsOf, elapsed, add_assoc]

theorem step_collecting {σ : Type} (send : Sink σ) (mi : Int) (t t1 : Sys σ)
    (ms : List LogMessage) (dl : Int) (e : Event)
    (hagg : t.agg = .collecting ms dl) (he : e.isFire = false)
    (h : step send mi t e = some t1) :
    ∃ more newAcc, t1.agg = .collecting (ms ++ more) dl ∧
      t1.accepted = t.accepted ++ newAcc ∧
      more ++ t1.msgChan.buf = t.msgChan.buf ++ newAcc ∧
      t1.closed = t.closed ∧ digests t1.calls = digests t.calls := by
  cases e with
  | request r =>
    rw [step_request, Option.some.injEq] at h
    subst h
    rcases submitHandler_cases send r t with ⟨_, h⟩ | ⟨_, _, h⟩ | ⟨_, _, h⟩ | ⟨_, _, _, h⟩
    · rw [h]; exact ⟨[], [], by simpa using hagg, by simp, by simp, rfl, rfl⟩
    · rw [h]
      refine ⟨[], [], by simpa using hagg, by simp, by simp, rfl, ?_⟩
      show digests (t.calls ++ _) = _
      rw [digests_append]
      simp [digests]
    · rw [h]; exact ⟨[], [r.msg], by simpa using hagg, rfl, by simp, rfl, rfl⟩
    · rw [h]; exact ⟨[], [], by simpa using hagg, by simp, by simp, rfl, rfl⟩
  | recv =>
    cases hbuf : t.msgChan.buf with
    | nil => rw [step_recv_empty send mi t hbuf] at h; cases h
    | cons m tl =>
      rw [step_recv_collecting send mi t ms dl m tl hagg hbuf, Option.some.injEq] at h
      subst h
      exact ⟨[m], [], rfl, by simp, by simp, rfl, rfl⟩
  | fire => cases he
  | tick d =>
    rw [step_tick, Option.some.injEq] at h
    subst h
    exact ⟨[], [], by simpa using hagg, by simp, by simp, rfl, rfl⟩

theorem run_collecting {σ : Type} (send : Sink σ) (mi : Int) (dl : Int) (evs : List Event) :
    ∀ (t t1 : Sys σ) (ms : List LogMessage), t.agg = .collecting ms dl →
      fireFree evs = true → run send mi t evs = some t1 →
      ∃ more newAcc, t1.agg = .collecting (ms ++ more) dl ∧
        t1.accepted = t.accepted ++ newAcc ∧
        more ++ t1.msgChan.buf = t.msgChan.buf ++ newAcc ∧
        t1.closed = t.closed ∧ digests t1.calls = digests t.calls := by
  induction evs with
  | nil =>
    intro t t1 ms hagg _ h
    simp only [run, Option.some.injEq] at h
    subst h
    exact ⟨[], [], by simpa using hagg, by simp, by simp, rfl, rfl⟩
  | cons e es ih =>
    intro t t1 ms hagg hff h
    have he : e.isFire = false := by
      simp only [fireFree, List.all_cons, Bool.and_eq_true, Bool.not_eq_true'] at hff
      exact hff.1
    have hes : fireFree es = true := by
      simp only [fireFree, List.all_cons, Bool.and_eq_true] at hff
      exact hff.2
    cases hs : step send mi t e with
    | none => simp [run, hs] at h
    | some t2 =>
      rw [run_cons_some send mi t t2 e es hs] at h
      obtain ⟨more1, new1, ha1, hacc1, hbuf1, hcl1, hdg1⟩ :=
        step_collecting send mi t t2 ms dl e hagg he hs
      obtain ⟨more2, new2, ha2, hacc2, hbuf2, hcl2, hdg2⟩ :=
        ih t2 t1 (ms ++ more1) ha1 hes h
      refine ⟨more1 ++ more2, new1 ++ new2, ?_, ?_, ?_, ?_, ?_⟩
      · rw [ha2, List.append_assoc]
      · rw [hacc2, hacc1, List.append_assoc]
      · rw [List.append_assoc, hbuf2, ← List.append_assoc, hbuf1, List.append_assoc]
      · rw [hcl2, hcl1]
      · rw [hdg2, hdg1]

/-- C5: from an idle aggregator and an empty channel, a first valid request is
served and received, further valid requests are served and received while the
aggregator collects, time passes until the timer is due and the timer case is
taken: the run happens, closes exactly one window holding all the messages in
submission order, makes exactly one digest call, whose text is the
concatenation of their lines, and leaves the aggregator idle.  A receive while
collecting appends the message and keeps the deadline of the timer; more
generally, along any events other than the timer case (requests accepted or
refused, receives, passing time) a collecting aggregator keeps its deadline,
its batch grows by the messages received, in order, and no window is closed
and no digest sent. -/
theorem C5_single_window {σ : Type} (send : Sink σ) (mi : Int) (s : Sys σ) (r0 : Request)
    (rest : List (Nat × Request)) (dlast : Nat)
    (hidle : s.agg = .idle) (hempty : s.msgChan.buf = []) (hcap : 0 < s.msgChan.cap)
    (h0 : r0.valid) (hrest : ∀ p ∈ rest, p.2.valid)
    (hdue : mi ≤ (elapsed rest : Int) + (dlast : Int)) :
    (∃ s1, run send mi s (Event.request r0 :: Event.recv ::
          (arrivals rest ++ [Event.tick dlast, Event.fire])) = some s1 ∧
      s1.agg = .idle ∧ s1.msgChan = s.msgChan ∧
      s1.closed = s.closed ++ [r0.msg :: msgsOf rest] ∧
      s1.accepted = s.accepted ++ r0.msg :: msgsOf rest ∧
      s1.calls = s.calls ++ (deliver send s.world (combine (r0.msg :: msgsOf rest))).1 ∧
      digests s1.calls = digests s.calls ++ [combine (r0.msg :: msgsOf rest)] ∧
      combine (r0.msg :: msgsOf rest) =
        concatLines ((r0.msg :: msgsOf rest).map formatLine)) ∧
    (∀ (t : Sys σ) (ms : List LogMessage) (dl : Int) (m : LogMessage) (tl : List LogMessage),
      t.agg = .collecting ms dl → t.msgChan.buf = m :: tl →
      step send mi t .recv =
        some ⟨⟨t.msgChan.cap, tl⟩, .collecting (ms ++ [m]) dl, t.now, t.world, t.calls,
          t.accepted, t.closed⟩) ∧
    (∀ (t t1 : Sys σ) (ms : List LogMessage) (dl : Int) (evs : List Event),
      t.agg = .collecting ms dl → fireFree evs = true → run send mi t evs = some t1 →
      ∃ more newAcc, t1.agg = .collecting (ms ++ more) dl ∧
        t1.accepted = t.accepted ++ newAcc ∧
        more ++ t1.msgChan.buf = t.msgChan.buf ++ newAcc ∧
        t1.closed = t.closed ∧ digests t1.calls = digests t.calls) := by
  refine ⟨?_, fun t ms dl m tl ha hb => step_recv_collecting send mi t ms dl m tl ha hb,
    fun t t1 ms dl evs ha hf hr => run_collecting send mi dl evs t t1 ms ha hf hr⟩
  obtain ⟨⟨cap, buf⟩, agg, now, w, calls, acc, closed⟩ := s
  dsimp only at hidle hempty hcap
  subst hidle hempty
  rw [run_cons_some send mi _ _ _ _ (step_request send mi _ r0)]
  rw [submitHandler_room send r0 _ h0 (by simpa using hcap)]
  rw [run_cons_some send mi _ _ _ _ (step_recv_idle send mi _ r0.msg [] rfl rfl)]
  rw [run_append_some send mi _ _ _ _
    (run_arrivals send mi cap hcap w calls closed (now + mi) rest hrest [r0.msg] now
      (acc ++ [r0.msg]))]
  rw [run_cons_some send mi _ _ _ _ (step_tick send mi _ dlast)]
  have hd : now + mi ≤ now + (elapsed rest : Int) + (dlast : Int) := by
    dsimp only
    omega
  rw [run_cons_some send mi _ _ _ _
    (step_fire_due send mi _ ([r0.msg] ++ msgsOf rest) (now + mi) rfl hd)]
  refine ⟨_, rfl, rfl, rfl, rfl, ?_, rfl, ?_, combine_eq_concatLines _⟩
  · show acc ++ [r0.msg] ++ msgsOf rest = acc ++ r0.msg :: msgsOf rest
    simp
  · show digests (calls ++ _) = _
    rw [digests_append, digests_deliver]
    rfl

/-- Witness of C5: a message at t=0 and another 0.9 s later, with a merge
interval of 1 s, end in one digest holding both lines. -/
theorem C5_single_window_witness :
    ∃ s1, run okSink 1000000000 (Sys.init 2 0 0)
        [.request (postOf "bot1" "error" "down"), .recv, .tick 900000000,
          .request (postOf "" "" "ok"), .recv, .tick 100000000, .fire] = some s1 ∧
      s1.agg = .idle ∧
      s1.closed = [[⟨"bot1", "error", "down"⟩, ⟨"", "", "ok"⟩]] ∧
      digests s1.calls = ["From: *bot1*: `[error]` down\nok\n"] := by
  obtain ⟨s1, hrun, hagg, _, hclosed, _, _, hdig, _⟩ :=
    (C5_single_window okSink 1000000000 (Sys.init 2 0 0) (postOf "bot1" "error" "down")
      [(900000000, postOf "" "" "ok")] 100000000 rfl rfl (by decide) ⟨rfl, rfl, by decide⟩
      (by
        intro p hp
        rw [List.mem_singleton.mp hp]
        exact ⟨rfl, rfl, by decide⟩)
      (by decide)).1
  exact ⟨s1, hrun, hagg, hclosed, hdig⟩

/-- C6: a first valid request is served and received, the timer becomes due
and its case is taken, and only then a second valid request is served, received
and its window closed: the run happens, closes two windows of one message each
and makes two digest calls, the line of the first message and then the line of
the second. -/
theorem C6_two_windows {σ : Type} (send : Sink σ) (mi : Int) (s : Sys σ) (r1 r2 : Request)
    (d1 gap d2 : Nat)
    (hidle : s.agg = .idle) (hempty : s.msgChan.buf = []) (hcap : 0 < s.msgChan.cap)
    (h1 : r1.valid) (h2 : r2.valid) (hd1 : mi ≤ (d1 : Int)) (hd2 : mi ≤ (d2 : Int)) :
    ∃ s1, run send mi s [.request r1, .recv, .tick d1, .fire, .tick gap,
        .request r2, .recv, .tick d2, .fire] = some s1 ∧
      s1.agg = .idle ∧ s1.msgChan = s.msgChan ∧
      s1.closed = s.closed ++ [[r1.msg], [r2.msg]] ∧
      s1.calls = s.calls ++ ((deliver send s.world (formatLine r1.msg)).1 ++
        (deliver send (deliver send s.world (formatLine r1.msg)).2 (formatLine r2.msg)).1) ∧
      digests s1.calls = digests s.calls ++ [formatLine r1.msg, formatLine r2.msg] := by
  obtain ⟨⟨cap, buf⟩, agg, now, w, calls, acc, closed⟩ := s
  dsimp only at hidle hempty hcap
  subst hidle hempty
  rw [run_cons_some send mi _ _ _ _ (step_request send mi _ r1)]
  rw [submitHandler_room send r1 _ h1 (by simpa using hcap)]
  rw [run_cons_some send mi _ _ _ _ (step_recv_idle send mi _ r1.msg [] rfl rfl)]
  rw [run_cons_some send mi _ _ _ _ (step_tick send mi _ d1)]
  have hdue1 : now + mi ≤ now + (d1 : Int) := by omega
  rw [run_cons_some send mi _ _ _ _ (step_fire_due send mi _ [r1.msg] (now + mi) rfl hdue1)]
  rw [run_cons_some send mi _ _ _ _ (step_tick send mi _ gap)]
  rw [run_cons_some send mi _ _ _ _ (step_request send mi _ r2)]
  rw [submitHandler_room send r2 _ h2 (by simpa using hcap)]
  rw [run_cons_some send mi _ _ _ _ (step_recv_idle send mi _ r2.msg [] rfl rfl)]
  rw [run_cons_some send mi _ _ _ _ (step_tick send mi _ d2)]
  have hdue2 : now + (d1 : Int) + (gap : Int) + mi ≤ now + (d1 : Int) + (gap : Int) + (d2 : Int) := by
    omega
  rw [run_cons_some send mi _ _ _ _
    (step_fire_due send mi _ [r2.msg] (now + (d1 : Int) + (gap : Int) + mi) rfl hdue2)]
  refine ⟨_, rfl, rfl, rfl, ?_, ?_, ?_⟩
  · show closed ++ [[r1.msg]] ++ [[r2.msg]] = closed ++ [[r1.msg], [r2.msg]]
    simp
  · show calls ++ (deliver send w (combine [r1.msg])).1 ++
      (deliver send (deliver send w (combine [r1.msg])).2 (combine [r2.msg])).1 = _
    simp [combine_singleton]
  · show digests (calls ++ (deliver send w (combine [r1.msg])).1 ++
      (deliver send (deliver send w (combine [r1.msg])).2 (combine [r2.msg])).1) = _
    rw [digests_append, digests_append, digests_deliver, digests_deliver]
    simp [combine_singleton]

/-- Witness of C6: two messages two seconds apart with a merge interval of one
second give two digests of one line each. -/
theorem C6_two_windows_witness :
    ∃ s1, run okSink 1000000000 (Sys.init mainChan.cap 0 0)
        [.request (postOf "bot1" "error" "down"), .recv, .tick 1000000000, .fire,
          .tick 1000000000, .request (postOf "" "" "ok"), .recv, .tick 1000000000,
          .fire] = some s1 ∧
      s1.closed = [[⟨"bot1", "error", "down"⟩], [⟨"", "", "ok"⟩]] ∧
      digests s1.calls = ["From: *bot1*: `[error]` down\n", "ok\n"] := by
  obtain ⟨s1, hrun, _, _, hclosed, _, hdig⟩ :=
    C6_two_windows okSink 1000000000 (Sys.init mainChan.cap 0 0) (postOf "bot1" "error" "down")
      (postOf "" "" "ok") 1000000000 1000000000 1000000000 rfl rfl (by decide)
      ⟨rfl, rfl, by decide⟩ ⟨rfl, rfl, by decide⟩ (by decide) (by decide)
  exact ⟨s1, hrun, hclosed, hdig⟩

/-- C10: in every state reached from startup by any sequence of requests,
receives, timer firings and clock ticks, with any sink, the accepted messages
are, in order, the messages of the closed windows, then those of the open
batch, then those still in the channel; the digest calls made so far are the
digests of the closed windows in order; and no closed window is empty. -/
theorem C10_conservation {σ : Type} (send : Sink σ) (mi : Int) (cap : Nat) (t0 : Int) (w : σ)
    (evs : List Event) (s : Sys σ) (h : run send mi (Sys.init cap t0 w) evs = some s) :
    s.accepted = s.closed.flatten ++ (openBatch s.agg ++ s.msgChan.buf) ∧
    digests s.calls = s.closed.map combine ∧
    (∀ b ∈ s.closed, b ≠ []) := by
  obtain ⟨h1, h2, h3, _⟩ :=
    run_conserved send mi evs (Sys.init cap t0 w) s (conserved_init cap t0 w) h
  exact ⟨h1, h2, h3⟩

/-- Witness of C10: the run `traceEx`, in which a request is refused and the
delivery fails, reaches `finalEx`, which conserves the three accepted messages. -/
theorem C10_conservation_witness :
    finalEx.accepted =
      finalEx.closed.flatten ++ (openBatch finalEx.agg ++ finalEx.msgChan.buf) ∧
    digests finalEx.calls = finalEx.closed.map combine ∧
    (∀ b ∈ finalEx.closed, b ≠ []) :=
  C10_conservation downSink 1000000000 2 0 0 traceEx finalEx rfl

end TelegramNotifications
